import Mathlib

/-!
Shallow embedding of the two React hooks of `Dorian30/library`
(`src/hooks/useKeyboard.ts`: `useKeyboard` and `usePosition`) together with a
small operational model of the React lifecycle primitives they rely on
(`useState`, `useCallback`, `useEffect` with dependency arrays, and the native
`addEventListener` / `removeEventListener` pair).

Geometry values reported by `getBoundingClientRect` and the viewport
dimensions are modelled as rationals; the comparisons the code performs are
order comparisons only, so `ℚ` reflects them faithfully.
-/

namespace Hooks

/-! ### usePosition: data model -/

/-- `type TAlign = "left" | "right"` -/
inductive TAlign
  | left
  | right
deriving DecidableEq

/-- `type TSide = "top" | "bottom"` -/
inductive TSide
  | top
  | bottom
deriving DecidableEq

/-- `type TPosition = [TAlign, TSide]` -/
abbrev TPosition := TAlign × TSide

/-- The fields of the `DOMRect` returned by `getBoundingClientRect` that
`usePosition` reads. -/
structure DOMRect where
  right : ℚ
  bottom : ℚ
  width : ℚ
  height : ℚ
deriving DecidableEq

/-- The viewport dimensions `usePosition` reads from `window`. -/
structure Window where
  innerWidth : ℚ
  innerHeight : ℚ
deriving DecidableEq

/-- `useState<TPosition>(["right", "bottom"])`: the initial state. -/
def defaultPosition : TPosition := (TAlign.right, TSide.bottom)

/-- The placement computation inside `usePosition`'s effect, for a present
node: start from `align = "right"`, `side = "bottom"`, compute
`spaceOnRight = window.innerWidth - popup.right` and
`spaceOnBottom = window.innerHeight - popup.bottom`, flip `align` to `left`
when `spaceOnRight <= popup.width` and `side` to `top` when
`spaceOnBottom <= popup.height`. -/
def computePosition (popup : DOMRect) (window : Window) : TPosition :=
  let align0 : TAlign := TAlign.right
  let side0 : TSide := TSide.bottom
  let spaceOnRight := window.innerWidth - popup.right
  let spaceOnBottom := window.innerHeight - popup.bottom
  let align := if spaceOnRight ≤ popup.width then TAlign.left else align0
  let side := if spaceOnBottom ≤ popup.height then TSide.top else side0
  (align, side)

/-- A DOM node as seen by `usePosition`: an identity (reference equality of
the underlying element) plus the bounding box `getBoundingClientRect` would
report for it. -/
structure PosNode where
  nodeId : ℕ
  rect : DOMRect
deriving DecidableEq

/-- One render of the component calling `usePosition`: the identity of the
ref object passed in (the `useEffect` dependency), the node `ref.current`
holds when the effect would run (`none` when `null`), and the live viewport. -/
structure PosRender where
  refId : ℕ
  node : Option PosNode
  window : Window

/-- Hook state of `usePosition`: the `useState` cell and the dependency array
`[ref]` recorded by `useEffect` at its last run (`none` before any run). -/
structure PosState where
  position : TPosition
  lastDep : Option ℕ
deriving DecidableEq

/-- The body of `usePosition`'s effect: `if (ref.current) { ...
setPosition([align, side]) }` — measure and publish when the node exists,
otherwise leave the state untouched. -/
def usePositionEffect (node : Option PosNode) (w : Window) (position : TPosition) :
    TPosition :=
  match node with
  | some n => computePosition n.rect w
  | none => position

/-- One commit of `usePosition`: React re-runs the effect iff the dependency
array `[ref]` differs from the recorded one. -/
def usePositionStep (s : PosState) (r : PosRender) : PosState :=
  if s.lastDep = some r.refId then s
  else
    { position := usePositionEffect r.node r.window s.position
      lastDep := some r.refId }

/-- Hook state at mount, before any effect has run. -/
def usePositionInit : PosState :=
  { position := defaultPosition, lastDep := none }

/-- The state of `usePosition` after a sequence of commits. -/
def usePositionRun (rs : List PosRender) : PosState :=
  rs.foldl usePositionStep usePositionInit

/-! ### useKeyboard: data model

`useKeyboard(key, listener, { event = "keydown", preventDefault = true, ref })`
builds `eventHandler = useCallback(e => { if (e.key === key)
{ preventDefault && e.preventDefault(); listener(e); } }, [key])` and runs
`useEffect(() => { const target = ref?.current || document;
target.addEventListener(event, eventHandler); return () =>
target.removeEventListener(event, eventHandler); }, [event, eventHandler, ref])`.

Function and DOM-object identities (reference equality, which is what
`useCallback` memoisation, the `useEffect` dependency comparison and
`removeEventListener` matching are about) are modelled as natural numbers. -/

/-- `type TKeyboardEvent = "keydown" | "keypress" | "keyup"` -/
inductive TKeyboardEvent
  | keydown
  | keypress
  | keyup
deriving DecidableEq

/-- An event target: `document`, or an `HTMLElement` with its reference
identity. -/
inductive Target
  | document
  | node (id : ℕ)
deriving DecidableEq

/-- The parts of a native `KeyboardEvent` the handler touches: the `key`
string and the `defaultPrevented` flag that `preventDefault()` sets. -/
structure KeyboardEvent where
  key : String
  defaultPrevented : Bool
deriving DecidableEq

/-- The wrapped handler produced by `useCallback`: its reference identity
`hid`, and the values of `key`, `preventDefault` and `listener` its closure
captured at the render that created it. The listener is identified by
reference. -/
structure HandlerClosure where
  hid : ℕ
  key : String
  preventDefault : Bool
  listener : ℕ
deriving DecidableEq

/-- The body of the wrapped handler:
`if (e.key === key) { preventDefault && e.preventDefault(); listener(e); }`.
Returns the event after the handler ran (its `defaultPrevented` flag possibly
set) together with the list of listener invocations `(listener identity,
event object passed)` the handler performed. -/
def eventHandler (h : HandlerClosure) (e : KeyboardEvent) :
    KeyboardEvent × List (ℕ × KeyboardEvent) :=
  if e.key = h.key then
    let e' := if h.preventDefault then { e with defaultPrevented := true } else e
    (e', [(h.listener, e')])
  else (e, [])

/-- A native listener registration: the target and event name
`addEventListener` was called with, and the handler function registered. -/
structure Subscription where
  target : Target
  event : TKeyboardEvent
  handler : HandlerClosure
deriving DecidableEq

/-- A DOM listener-table mutation performed by the hook. -/
inductive Action
  | add (sub : Subscription)
  | remove (sub : Subscription)
deriving DecidableEq

/-- `removeEventListener` semantics: drop the first registration equal to
`sub`; silently do nothing when none matches. -/
def removeListener (ls : List Subscription) (sub : Subscription) : List Subscription :=
  match ls with
  | [] => []
  | x :: xs => if x = sub then xs else x :: removeListener xs sub

/-- Apply one listener-table mutation (`addEventListener` appends,
`removeEventListener` removes the first match). -/
def applyAction (ls : List Subscription) : Action → List Subscription
  | Action.add sub => ls ++ [sub]
  | Action.remove sub => removeListener ls sub

/-- The DOM's listener table after replaying a log of mutations. -/
def domListeners (log : List Action) : List Subscription :=
  log.foldl applyAction []

/-- Dispatching a native keyboard event of name `ev` on target `t`: every
registered listener for `(t, ev)` runs; the result collects the listener
invocations performed. -/
def dispatch (log : List Action) (t : Target) (ev : TKeyboardEvent)
    (e : KeyboardEvent) : List (ℕ × KeyboardEvent) :=
  ((domListeners log).filter fun sub => sub.target == t && sub.event == ev).flatMap
    fun sub => (eventHandler sub.handler e).2

/-- One render of the component calling `useKeyboard`: the `key` argument,
the reference identity of the `listener` argument, the options, the
reference identity of the `ref` object (`none` when no ref is passed), and
the node `ref.current` holds when the effect runs (`none` when the ref is
absent or its `current` is `null`). -/
structure KBRender where
  key : String
  listener : ℕ
  preventDefault : Bool
  event : TKeyboardEvent
  refId : Option ℕ
  refCurrent : Option ℕ

/-- Hook state of `useKeyboard`: the `useCallback` cache (the memoised
handler, whose `key` field is its recorded dependency array `[key]`), the
dependency array `[event, eventHandler, ref]` recorded by `useEffect` at its
last run, the live registration whose captured cleanup is pending, the log
of DOM mutations performed so far, and a counter allocating fresh function
identities. -/
structure KBState where
  memo : Option HandlerClosure
  effectDeps : Option (TKeyboardEvent × ℕ × Option ℕ)
  installed : Option Subscription
  log : List Action
  nextId : ℕ

/-- `ref?.current || document`: the target resolution performed when the
effect runs. -/
def resolveTarget (refCurrent : Option ℕ) : Target :=
  match refCurrent with
  | some n => Target.node n
  | none => Target.document

/-- `useCallback(..., [key])`: return the memoised closure when the recorded
dependency array `[key]` matches the current one, otherwise allocate a fresh
function closing over the current `key`, `preventDefault` and `listener`.
Returns the handler together with the updated fresh-identity counter. -/
def useCallbackStep (memo : Option HandlerClosure) (nextId : ℕ) (r : KBRender) :
    HandlerClosure × ℕ :=
  match memo with
  | some h =>
      if h.key = r.key then (h, nextId)
      else (⟨nextId, r.key, r.preventDefault, r.listener⟩, nextId + 1)
  | none => (⟨nextId, r.key, r.preventDefault, r.listener⟩, nextId + 1)

/-- One commit of `useKeyboard`. `useCallback` returns the memoised handler
when the dependency `[key]` is unchanged and otherwise a fresh function
closing over the current `key`, `preventDefault` and `listener`; `useEffect`
re-runs iff `[event, eventHandler, ref]` differs from the recorded array, in
which case the pending cleanup (captured `target.removeEventListener(event,
eventHandler)`) runs first, then the new effect resolves its target and
calls `addEventListener`. -/
def useKeyboardStep (s : KBState) (r : KBRender) : KBState :=
  let memoRes : HandlerClosure × ℕ := useCallbackStep s.memo s.nextId r
  let handler := memoRes.1
  let deps : TKeyboardEvent × ℕ × Option ℕ := (r.event, handler.hid, r.refId)
  if s.effectDeps = some deps then
    { s with memo := some handler, nextId := memoRes.2 }
  else
    let sub : Subscription := ⟨resolveTarget r.refCurrent, r.event, handler⟩
    { memo := some handler
      effectDeps := some deps
      installed := some sub
      log := s.log
        ++ (match s.installed with
            | some old => [Action.remove old]
            | none => [])
        ++ [Action.add sub]
      nextId := memoRes.2 }

/-- Unmount: React runs the pending cleanup, which removes the captured
registration. -/
def useKeyboardCleanup (s : KBState) : KBState :=
  match s.installed with
  | some old => { s with installed := none, log := s.log ++ [Action.remove old] }
  | none => s

/-- Hook state at mount, before any render committed. -/
def useKeyboardInit : KBState :=
  { memo := none, effectDeps := none, installed := none, log := [], nextId := 0 }

/-- The state of `useKeyboard` after a sequence of commits. -/
def useKeyboardRun (rs : List KBRender) : KBState :=
  rs.foldl useKeyboardStep useKeyboardInit

/-- Whether a DOM mutation is an `addEventListener` call. -/
def isAdd : Action → Bool
  | Action.add _ => true
  | Action.remove _ => false

/-- Whether a DOM mutation is a `removeEventListener` call. -/
def isRemove : Action → Bool
  | Action.add _ => false
  | Action.remove _ => true

/-- Number of `addEventListener` calls in a mutation log. -/
def addCount (log : List Action) : ℕ := log.countP isAdd

/-- Number of `removeEventListener` calls in a mutation log. -/
def removeCount (log : List Action) : ℕ := log.countP isRemove

/-! ### Theorems -/

/-- Helper: a run of commits in which the referenced node is never present
leaves the `useState` cell untouched. -/
theorem usePosition_foldl_absent (rs : List PosRender) (s : PosState)
    (h : ∀ x ∈ rs, x.node = none) :
    (rs.foldl usePositionStep s).position = s.position := by
  induction rs generalizing s with
  | nil => rfl
  | cons r rs ih =>
      have hr : r.node = none := h r (by simp)
      have hrs : ∀ x ∈ rs, x.node = none := fun x hx => h x (by simp [hx])
      rw [List.foldl_cons, ih _ hrs]
      unfold usePositionStep
      split
      · rfl
      · simp [usePositionEffect, hr]

/-- C1: the measurement pass of `usePosition` picks `left` exactly when
`innerWidth - box.right ≤ box.width` (else `right`) and `top` exactly when
`innerHeight - box.bottom ≤ box.height` (else `bottom`); in particular the
box `{right: 700, bottom: 500, width: 200, height: 100}` in the viewport
`{innerWidth: 800, innerHeight: 600}` is placed `["left", "top"]`. -/
theorem usePosition_placement_rule (popup : DOMRect) (w : Window) :
    computePosition popup w
      = ((if w.innerWidth - popup.right ≤ popup.width then TAlign.left else TAlign.right),
         (if w.innerHeight - popup.bottom ≤ popup.height then TSide.top else TSide.bottom))
    ∧ computePosition ⟨700, 500, 200, 100⟩ ⟨800, 600⟩ = (TAlign.left, TSide.top) := by
  constructor
  · rfl
  · norm_num [computePosition]

/-- C5: `usePosition` publishes the default `["right", "bottom"]` before the
referenced node is available (in particular at mount, and after any number of
commits in which the node was never present), and a commit that finds the
node absent performs no measurement: the previous result is retained. -/
theorem usePosition_default_retained (rs : List PosRender) (s : PosState) (r : PosRender)
    (hrs : ∀ x ∈ rs, x.node = none) (hn : r.node = none) :
    (usePositionRun rs).position = defaultPosition
    ∧ (usePositionStep s r).position = s.position := by
  constructor
  · unfold usePositionRun
    rw [usePosition_foldl_absent rs usePositionInit hrs]
    rfl
  · unfold usePositionStep
    split
    · rfl
    · simp [usePositionEffect, hn]

/-- Witness for C5 at a concrete empty history and a concrete node-absent
commit. -/
theorem usePosition_default_retained_witness :
    (usePositionRun []).position = defaultPosition
    ∧ (usePositionStep usePositionInit ⟨0, none, ⟨800, 600⟩⟩).position
        = usePositionInit.position :=
  usePosition_default_retained [] usePositionInit ⟨0, none, ⟨800, 600⟩⟩ (by simp) rfl

/-- C6 counterexample: with the ref object unchanged (identity `0`), swapping
the referenced node (identity `1`, box `{right: 100, bottom: 100, width: 50,
height: 50}`) for a different node (identity `2`, box `{right: 900, bottom:
900, width: 200, height: 200}`) in the viewport `1000 × 1000` does NOT re-run
the measurement: the published result stays `["right", "bottom"]`, not the
`["left", "top"]` a re-measurement of the new node would produce. -/
theorem usePosition_recompute_cex :
    (usePositionRun
        [⟨0, some ⟨1, ⟨100, 100, 50, 50⟩⟩, ⟨1000, 1000⟩⟩,
         ⟨0, some ⟨2, ⟨900, 900, 200, 200⟩⟩, ⟨1000, 1000⟩⟩]).position
      ≠ computePosition ⟨900, 900, 200, 200⟩ ⟨1000, 1000⟩ := by
  norm_num [usePositionRun, usePositionInit, usePositionStep, usePositionEffect,
    computePosition, defaultPosition]
  decide

/-- C6 (amended): the measurement pass re-runs exactly when the identity of
the ref object differs from the one recorded at the last run (as on a
component remount, which supplies a fresh ref); a commit with the same ref
object — even one in which the referenced node or the viewport (resize,
scroll) changed — leaves the hook state entirely unchanged. -/
theorem usePosition_recompute_trigger (s : PosState) (r : PosRender) :
    (s.lastDep = some r.refId → usePositionStep s r = s)
    ∧ (s.lastDep ≠ some r.refId →
        (usePositionStep s r).position = usePositionEffect r.node r.window s.position
        ∧ (usePositionStep s r).lastDep = some r.refId) := by
  constructor
  · intro h
    simp [usePositionStep, h]
  · intro h
    simp [usePositionStep, h]

/-- Witness for C6's amended theorem: a same-ref commit is skipped, a
fresh-ref commit runs the effect. -/
theorem usePosition_recompute_trigger_witness :
    (usePositionStep ⟨(TAlign.right, TSide.bottom), some 0⟩ ⟨0, none, ⟨800, 600⟩⟩
        = ⟨(TAlign.right, TSide.bottom), some 0⟩)
    ∧ ((usePositionStep usePositionInit ⟨1, none, ⟨800, 600⟩⟩).position
          = usePositionEffect none ⟨800, 600⟩ usePositionInit.position
        ∧ (usePositionStep usePositionInit ⟨1, none, ⟨800, 600⟩⟩).lastDep = some 1) :=
  ⟨(usePosition_recompute_trigger ⟨(TAlign.right, TSide.bottom), some 0⟩
      ⟨0, none, ⟨800, 600⟩⟩).1 rfl,
   (usePosition_recompute_trigger usePositionInit ⟨1, none, ⟨800, 600⟩⟩).2
      (by simp [usePositionInit])⟩

/-- C8: the measurement is idempotent per trigger — re-running a commit
changes nothing further, and re-running the effect body on an unchanged node
and viewport republishes the same result. -/
theorem usePosition_idempotent (s : PosState) (r : PosRender) (n : Option PosNode)
    (w : Window) (p : TPosition) :
    usePositionStep (usePositionStep s r) r = usePositionStep s r
    ∧ usePositionEffect n w (usePositionEffect n w p) = usePositionEffect n w p := by
  constructor
  · by_cases h : s.lastDep = some r.refId
    · simp [usePositionStep, h]
    · simp [usePositionStep, h]
  · cases n <;> simp [usePositionEffect]

/-- C10: the two placement axes are independent — the alignment depends only
on `innerWidth`, `box.right` and `box.width`, and the side only on
`innerHeight`, `box.bottom` and `box.height`. -/
theorem usePosition_axis_independence (b1 b2 : DOMRect) (w1 w2 : Window) :
    (w1.innerWidth = w2.innerWidth → b1.right = b2.right → b1.width = b2.width →
      (computePosition b1 w1).1 = (computePosition b2 w2).1)
    ∧ (w1.innerHeight = w2.innerHeight → b1.bottom = b2.bottom → b1.height = b2.height →
      (computePosition b1 w1).2 = (computePosition b2 w2).2) := by
  constructor <;> intro h1 h2 h3 <;> simp [computePosition, h1, h2, h3]

/-- Witness for C10 at concrete boxes that agree on one axis only. -/
theorem usePosition_axis_independence_witness :
    (computePosition ⟨700, 500, 200, 100⟩ ⟨800, 600⟩).1
      = (computePosition ⟨700, 9, 200, 3⟩ ⟨800, 50⟩).1
    ∧ (computePosition ⟨1, 500, 2, 100⟩ ⟨80, 600⟩).2
      = (computePosition ⟨7, 500, 9, 100⟩ ⟨81, 600⟩).2 :=
  ⟨(usePosition_axis_independence ⟨700, 500, 200, 100⟩ ⟨700, 9, 200, 3⟩
      ⟨800, 600⟩ ⟨800, 50⟩).1 rfl rfl rfl,
   (usePosition_axis_independence ⟨1, 500, 2, 100⟩ ⟨7, 500, 9, 100⟩
      ⟨80, 600⟩ ⟨81, 600⟩).2 rfl rfl rfl⟩

/-- C2: the wrapped handler invokes the listener exactly once, passing the
very event object it received, iff the event's `key` equals the configured
key; the resulting `defaultPrevented` flag is the incoming one, forced to
`true` exactly when the key matched and `preventDefault` was configured —
so on a non-match, or with `preventDefault` off, an unprevented event stays
unprevented. -/
theorem useKeyboard_eventHandler_spec (h : HandlerClosure) (e : KeyboardEvent) :
    ((eventHandler h e).2.length = if e.key = h.key then 1 else 0)
    ∧ ((eventHandler h e).2
        = if e.key = h.key then [(h.listener, (eventHandler h e).1)] else [])
    ∧ (eventHandler h e).1.key = e.key
    ∧ ((eventHandler h e).1.defaultPrevented
        = (e.defaultPrevented || (h.preventDefault && (e.key == h.key)))) := by
  by_cases hk : e.key = h.key
  · by_cases hp : h.preventDefault <;> simp [eventHandler, hk, hp]
  · simp [eventHandler, hk]

/-- C7: `ref?.current || document` resolves to the referenced node when it
is live and falls back to the document otherwise (total, no error); every
installation a commit performs subscribes at that resolved target with the
commit's event name. -/
theorem useKeyboard_target_fallback (s : KBState) (r : KBRender) :
    resolveTarget none = Target.document
    ∧ (∀ n, resolveTarget (some n) = Target.node n)
    ∧ ((useKeyboardStep s r).installed = s.installed
        ∨ ∃ h, (useKeyboardStep s r).installed
            = some ⟨resolveTarget r.refCurrent, r.event, h⟩) := by
  refine ⟨rfl, fun n => rfl, ?_⟩
  by_cases hd : s.effectDeps
      = some (r.event, (useCallbackStep s.memo s.nextId r).1.hid, r.refId)
  · left
    simp [useKeyboardStep, hd]
  · right
    exact ⟨(useCallbackStep s.memo s.nextId r).1, by simp [useKeyboardStep, hd]⟩

/-- C9: a pending cleanup removes exactly the registration captured when it
was installed — same target object, same event name, same handler reference
— both at unmount and before a reinstall; the ref's current node at teardown
time plays no role. -/
theorem useKeyboard_cleanup_captured (s : KBState) (r : KBRender) (sub : Subscription)
    (hs : s.installed = some sub) :
    (useKeyboardCleanup s).log = s.log ++ [Action.remove sub]
    ∧ ((useKeyboardStep s r).log = s.log
        ∨ ∃ sub2, (useKeyboardStep s r).log
            = s.log ++ [Action.remove sub, Action.add sub2]) := by
  constructor
  · simp [useKeyboardCleanup, hs]
  · by_cases hd : s.effectDeps
        = some (r.event, (useCallbackStep s.memo s.nextId r).1.hid, r.refId)
    · left
      simp [useKeyboardStep, hd]
    · right
      refine ⟨⟨resolveTarget r.refCurrent, r.event, (useCallbackStep s.memo s.nextId r).1⟩, ?_⟩
      simp [useKeyboardStep, hd, hs]

/-- Witness for C9: after mounting with the ref pointing at node `1`, the
ref's node changes to `2` without a dependency change; the cleanup still
removes from node `1`, the captured target. -/
theorem useKeyboard_cleanup_captured_witness :
    (useKeyboardCleanup
        (useKeyboardRun [⟨"Enter", 0, true, TKeyboardEvent.keydown, some 0, some 1⟩])).log
      = (useKeyboardRun [⟨"Enter", 0, true, TKeyboardEvent.keydown, some 0, some 1⟩]).log
        ++ [Action.remove ⟨Target.node 1, TKeyboardEvent.keydown, ⟨0, "Enter", true, 0⟩⟩]
    ∧ ((useKeyboardStep
          (useKeyboardRun [⟨"Enter", 0, true, TKeyboardEvent.keydown, some 0, some 1⟩])
          ⟨"Enter", 0, true, TKeyboardEvent.keydown, some 0, some 2⟩).log
        = (useKeyboardRun [⟨"Enter", 0, true, TKeyboardEvent.keydown, some 0, some 1⟩]).log
      ∨ ∃ sub2, (useKeyboardStep
          (useKeyboardRun [⟨"Enter", 0, true, TKeyboardEvent.keydown, some 0, some 1⟩])
          ⟨"Enter", 0, true, TKeyboardEvent.keydown, some 0, some 2⟩).log
        = (useKeyboardRun [⟨"Enter", 0, true, TKeyboardEvent.keydown, some 0, some 1⟩]).log
          ++ [Action.remove ⟨Target.node 1, TKeyboardEvent.keydown, ⟨0, "Enter", true, 0⟩⟩,
              Action.add sub2]) :=
  useKeyboard_cleanup_captured
    (useKeyboardRun [⟨"Enter", 0, true, TKeyboardEvent.keydown, some 0, some 1⟩])
    ⟨"Enter", 0, true, TKeyboardEvent.keydown, some 0, some 2⟩
    ⟨Target.node 1, TKeyboardEvent.keydown, ⟨0, "Enter", true, 0⟩⟩ rfl

/-- Helper: replaying a log extension folds the extra mutations onto the
existing listener table. -/
theorem domListeners_append (l l2 : List Action) :
    domListeners (l ++ l2) = l2.foldl applyAction (domListeners l) := by
  simp [domListeners]

/-- Helper: one commit preserves the DOM invariant — the listener table holds
exactly the registration whose cleanup is pending, and every
`addEventListener` call but the pending one has been matched by a
`removeEventListener` call. -/
theorem useKeyboard_step_inv (s : KBState) (r : KBRender)
    (h1 : domListeners s.log = s.installed.toList)
    (h2 : addCount s.log = removeCount s.log + s.installed.toList.length) :
    domListeners (useKeyboardStep s r).log = (useKeyboardStep s r).installed.toList
    ∧ addCount (useKeyboardStep s r).log
        = removeCount (useKeyboardStep s r).log
          + (useKeyboardStep s r).installed.toList.length := by
  by_cases hd : s.effectDeps
      = some (r.event, (useCallbackStep s.memo s.nextId r).1.hid, r.refId)
  · constructor
    · simpa [useKeyboardStep, hd] using h1
    · simpa [useKeyboardStep, hd] using h2
  · cases hins : s.installed with
    | none =>
        rw [hins] at h1 h2
        constructor
        · simp [useKeyboardStep, hd, hins, domListeners_append, applyAction, h1]
        · simp only [useKeyboardStep, hd, hins] at *
          simp [addCount, removeCount, List.countP_append, isAdd, isRemove] at h2 ⊢
          omega
    | some old =>
        rw [hins] at h1 h2
        constructor
        · simp [useKeyboardStep, hd, hins, domListeners_append, applyAction,
            removeListener, h1]
        · simp only [useKeyboardStep, hd, hins] at *
          simp [addCount, removeCount, List.countP_append, isAdd, isRemove] at h2 ⊢
          omega

/-- Helper: the DOM invariant holds along any run from an invariant state. -/
theorem useKeyboard_foldl_inv (rs : List KBRender) (s : KBState)
    (h1 : domListeners s.log = s.installed.toList)
    (h2 : addCount s.log = removeCount s.log + s.installed.toList.length) :
    domListeners (rs.foldl useKeyboardStep s).log
        = (rs.foldl useKeyboardStep s).installed.toList
    ∧ addCount (rs.foldl useKeyboardStep s).log
        = removeCount (rs.foldl useKeyboardStep s).log
          + (rs.foldl useKeyboardStep s).installed.toList.length := by
  induction rs generalizing s with
  | nil => exact ⟨h1, h2⟩
  | cons r rs ih =>
      obtain ⟨g1, g2⟩ := useKeyboard_step_inv s r h1 h2
      rw [List.foldl_cons]
      exact ih (useKeyboardStep s r) g1 g2

/-- Helper: the DOM invariant holds in every reachable hook state. -/
theorem useKeyboard_run_inv (rs : List KBRender) :
    domListeners (useKeyboardRun rs).log = (useKeyboardRun rs).installed.toList
    ∧ addCount (useKeyboardRun rs).log
        = removeCount (useKeyboardRun rs).log
          + (useKeyboardRun rs).installed.toList.length :=
  useKeyboard_foldl_inv rs useKeyboardInit rfl rfl

/-- Helper: dispatching on an empty listener table invokes nothing. -/
theorem dispatch_empty (log : List Action) (t : Target) (ev : TKeyboardEvent)
    (e : KeyboardEvent) (h : domListeners log = []) : dispatch log t ev e = [] := by
  unfold dispatch
  rw [h]
  rfl

/-- C4: after any run of commits followed by unmount, the listener table is
empty — every `addEventListener` call has been matched by exactly one
`removeEventListener` call with the identical registration — so dispatching
any event at any target invokes the callback zero times. -/
theorem useKeyboard_no_leak (rs : List KBRender) (t : Target) (ev : TKeyboardEvent)
    (e : KeyboardEvent) :
    domListeners (useKeyboardCleanup (useKeyboardRun rs)).log = []
    ∧ addCount (useKeyboardCleanup (useKeyboardRun rs)).log
        = removeCount (useKeyboardCleanup (useKeyboardRun rs)).log
    ∧ dispatch (useKeyboardCleanup (useKeyboardRun rs)).log t ev e = [] := by
  obtain ⟨h1, h2⟩ := useKeyboard_run_inv rs
  cases hins : (useKeyboardRun rs).installed with
  | none =>
      rw [hins] at h1 h2
      have g1 : domListeners (useKeyboardCleanup (useKeyboardRun rs)).log = [] := by
        simpa [useKeyboardCleanup, hins] using h1
      refine ⟨g1, ?_, dispatch_empty _ t ev e g1⟩
      simp only [useKeyboardCleanup, hins] at *
      simpa using h2
  | some old =>
      rw [hins] at h1 h2
      have g1 : domListeners (useKeyboardCleanup (useKeyboardRun rs)).log = [] := by
        simp [useKeyboardCleanup, hins, domListeners_append, applyAction,
          removeListener, h1]
      refine ⟨g1, ?_, dispatch_empty _ t ev e g1⟩
      simp only [useKeyboardCleanup, hins] at *
      simp [addCount, removeCount, List.countP_append, isAdd, isRemove] at h2 ⊢
      omega

/-- Helper: `useCallback` returns a handler whose identity is below the
updated counter, and never decreases the counter. -/
theorem useCallbackStep_fresh (memo : Option HandlerClosure) (nextId : ℕ) (r : KBRender)
    (hm : ∀ h, memo = some h → h.hid < nextId) :
    (useCallbackStep memo nextId r).1.hid < (useCallbackStep memo nextId r).2
    ∧ nextId ≤ (useCallbackStep memo nextId r).2 := by
  cases memo with
  | none => simp [useCallbackStep]
  | some h =>
      by_cases hk : h.key = r.key
      · have e1 : useCallbackStep (some h) nextId r = (h, nextId) := by
          simp [useCallbackStep, hk]
        rw [e1]
        exact ⟨hm h rfl, le_refl nextId⟩
      · simp [useCallbackStep, hk]

/-- Helper: one commit preserves freshness — the memoised handler's identity
and the handler identity recorded in the effect's dependency array are below
the allocation counter. -/
theorem useKeyboard_step_fresh (s : KBState) (r : KBRender)
    (hm : ∀ h, s.memo = some h → h.hid < s.nextId)
    (_hd : ∀ p : TKeyboardEvent × ℕ × Option ℕ, s.effectDeps = some p → p.2.1 < s.nextId) :
    (∀ h, (useKeyboardStep s r).memo = some h → h.hid < (useKeyboardStep s r).nextId)
    ∧ (∀ p : TKeyboardEvent × ℕ × Option ℕ,
        (useKeyboardStep s r).effectDeps = some p → p.2.1 < (useKeyboardStep s r).nextId) := by
  obtain ⟨g1, g2⟩ := useCallbackStep_fresh s.memo s.nextId r hm
  by_cases hde : s.effectDeps
      = some (r.event, (useCallbackStep s.memo s.nextId r).1.hid, r.refId)
  · constructor
    · intro h hh
      simp only [useKeyboardStep, hde, if_pos] at hh
      simp only [useKeyboardStep, hde, if_pos]
      simp at hh
      subst hh
      exact g1
    · intro p hp
      simp only [useKeyboardStep, hde, if_pos] at hp
      simp only [useKeyboardStep, hde, if_pos]
      simp at hp
      subst hp
      simpa using g1
  · constructor
    · intro h hh
      simp only [useKeyboardStep, hde, if_neg] at hh
      simp only [useKeyboardStep, hde, if_neg]
      simp at hh
      subst hh
      exact g1
    · intro p hp
      simp only [useKeyboardStep, hde, if_neg] at hp
      simp only [useKeyboardStep, hde, if_neg]
      simp at hp
      subst hp
      exact g1

/-- Helper: freshness holds along any run from a fresh state. -/
theorem useKeyboard_foldl_fresh (rs : List KBRender) (s : KBState)
    (hm : ∀ h, s.memo = some h → h.hid < s.nextId)
    (hd : ∀ p : TKeyboardEvent × ℕ × Option ℕ, s.effectDeps = some p → p.2.1 < s.nextId) :
    (∀ h, (rs.foldl useKeyboardStep s).memo = some h
        → h.hid < (rs.foldl useKeyboardStep s).nextId)
    ∧ (∀ p : TKeyboardEvent × ℕ × Option ℕ,
        (rs.foldl useKeyboardStep s).effectDeps = some p
        → p.2.1 < (rs.foldl useKeyboardStep s).nextId) := by
  induction rs generalizing s with
  | nil => exact ⟨hm, hd⟩
  | cons r rs ih =>
      obtain ⟨g1, g2⟩ := useKeyboard_step_fresh s r hm hd
      rw [List.foldl_cons]
      exact ih (useKeyboardStep s r) g1 g2

/-- Helper: freshness holds in every reachable hook state. -/
theorem useKeyboard_run_fresh (rs : List KBRender) :
    (∀ h, (useKeyboardRun rs).memo = some h → h.hid < (useKeyboardRun rs).nextId)
    ∧ (∀ p : TKeyboardEvent × ℕ × Option ℕ,
        (useKeyboardRun rs).effectDeps = some p → p.2.1 < (useKeyboardRun rs).nextId) :=
  useKeyboard_foldl_fresh rs useKeyboardInit
    (fun h hh => by simp [useKeyboardInit] at hh)
    (fun p hp => by simp [useKeyboardInit] at hp)

/-- C3 counterexample: (a) a change of `key` alone — listener, options and
ref all unchanged — recreates the wrapped handler and therefore tears the
subscription down and reinstalls it: the mutation log of the two-render run
contains a `removeEventListener` call; (b) a change of the listener alone
(same `key`) is NOT picked up: dispatching a matching "Enter" press after
rendering with the new listener `1` still invokes the stale captured
listener `0`. -/
theorem useKeyboard_rebind_cex :
    (useKeyboardRun
        [⟨"Enter", 0, true, TKeyboardEvent.keydown, some 0, some 5⟩,
         ⟨"Escape", 0, true, TKeyboardEvent.keydown, some 0, some 5⟩]).log
      = [Action.add ⟨Target.node 5, TKeyboardEvent.keydown, ⟨0, "Enter", true, 0⟩⟩,
         Action.remove ⟨Target.node 5, TKeyboardEvent.keydown, ⟨0, "Enter", true, 0⟩⟩,
         Action.add ⟨Target.node 5, TKeyboardEvent.keydown, ⟨1, "Escape", true, 0⟩⟩]
    ∧ dispatch (useKeyboardRun
          [⟨"Enter", 0, true, TKeyboardEvent.keydown, some 0, some 5⟩,
           ⟨"Enter", 1, true, TKeyboardEvent.keydown, some 0, some 5⟩]).log
        (Target.node 5) TKeyboardEvent.keydown ⟨"Enter", false⟩
      = [(0, ⟨"Enter", true⟩)] := by
  constructor
  · rfl
  · rfl

/-- C3 (amended): the `useEffect` dependency array is `[event, eventHandler,
ref]`, so only those identities gate teardown+reinstall — but the wrapped
handler is memoised with dependency `[key]`, so a change of `keyIdentity`
alone recreates the handler (capturing the latest `key`, `preventDefault`
and `callback`) and does trigger re-subscription, while a change of the
callback alone leaves the memoised handler — and the stale captured callback
— in place and does not re-subscribe unless the effect deps changed. -/
theorem useKeyboard_rebind_policy (rs : List KBRender) (r : KBRender) (h : HandlerClosure)
    (hm : (useKeyboardRun rs).memo = some h) :
    (r.key = h.key →
      (useKeyboardStep (useKeyboardRun rs) r).memo = some h
      ∧ ((useKeyboardStep (useKeyboardRun rs) r).log = (useKeyboardRun rs).log
          ↔ (useKeyboardRun rs).effectDeps = some (r.event, h.hid, r.refId)))
    ∧ (r.key ≠ h.key →
      (useKeyboardStep (useKeyboardRun rs) r).memo
          = some ⟨(useKeyboardRun rs).nextId, r.key, r.preventDefault, r.listener⟩
      ∧ (useKeyboardStep (useKeyboardRun rs) r).log ≠ (useKeyboardRun rs).log) := by
  constructor
  · intro hk
    have hk' : h.key = r.key := hk.symm
    have hcb : useCallbackStep (useKeyboardRun rs).memo (useKeyboardRun rs).nextId r
        = (h, (useKeyboardRun rs).nextId) := by
      simp [useCallbackStep, hm, hk']
    by_cases hde : (useKeyboardRun rs).effectDeps = some (r.event, h.hid, r.refId)
    · constructor
      · simp [useKeyboardStep, hcb, hde]
      · simp only [useKeyboardStep, hcb, hde]
        simp [hde]
    · constructor
      · simp [useKeyboardStep, hcb, hde]
      · simp only [useKeyboardStep, hcb]
        rw [if_neg hde]
        simp only [hde, iff_false]
        intro he
        have hl := congrArg List.length he
        simp [List.length_append] at hl
  · intro hk
    have hk' : ¬(h.key = r.key) := fun e => hk e.symm
    have hcb : useCallbackStep (useKeyboardRun rs).memo (useKeyboardRun rs).nextId r
        = (⟨(useKeyboardRun rs).nextId, r.key, r.preventDefault, r.listener⟩,
           (useKeyboardRun rs).nextId + 1) := by
      simp [useCallbackStep, hm, hk']
    have hde : ¬((useKeyboardRun rs).effectDeps
        = some (r.event, (useKeyboardRun rs).nextId, r.refId)) := by
      intro he
      exact lt_irrefl _ ((useKeyboard_run_fresh rs).2 _ he)
    constructor
    · simp [useKeyboardStep, hcb, hde]
    · simp only [useKeyboardStep, hcb]
      rw [if_neg (by simpa using hde)]
      intro he
      have hl := congrArg List.length he
      simp [List.length_append] at hl

/-- Witness for C3's amended theorem: mounted with key "Enter", a render
with key "Escape" (listener and options unchanged) recreates the handler and
re-subscribes. -/
theorem useKeyboard_rebind_policy_witness :
    (("Escape" : String) = (HandlerClosure.mk 0 "Enter" true 0).key →
      (useKeyboardStep
          (useKeyboardRun [⟨"Enter", 0, true, TKeyboardEvent.keydown, some 0, some 5⟩])
          ⟨"Escape", 0, true, TKeyboardEvent.keydown, some 0, some 5⟩).memo
        = some ⟨0, "Enter", true, 0⟩
      ∧ ((useKeyboardStep
          (useKeyboardRun [⟨"Enter", 0, true, TKeyboardEvent.keydown, some 0, some 5⟩])
          ⟨"Escape", 0, true, TKeyboardEvent.keydown, some 0, some 5⟩).log
          = (useKeyboardRun [⟨"Enter", 0, true, TKeyboardEvent.keydown, some 0, some 5⟩]).log
        ↔ (useKeyboardRun [⟨"Enter", 0, true, TKeyboardEvent.keydown, some 0, some 5⟩]).effectDeps
          = some (TKeyboardEvent.keydown, (HandlerClosure.mk 0 "Enter" true 0).hid, some 0)))
    ∧ (("Escape" : String) ≠ (HandlerClosure.mk 0 "Enter" true 0).key →
      (useKeyboardStep
          (useKeyboardRun [⟨"Enter", 0, true, TKeyboardEvent.keydown, some 0, some 5⟩])
          ⟨"Escape", 0, true, TKeyboardEvent.keydown, some 0, some 5⟩).memo
        = some ⟨(useKeyboardRun [⟨"Enter", 0, true, TKeyboardEvent.keydown, some 0, some 5⟩]).nextId,
            "Escape", true, 0⟩
      ∧ (useKeyboardStep
          (useKeyboardRun [⟨"Enter", 0, true, TKeyboardEvent.keydown, some 0, some 5⟩])
          ⟨"Escape", 0, true, TKeyboardEvent.keydown, some 0, some 5⟩).log
        ≠ (useKeyboardRun [⟨"Enter", 0, true, TKeyboardEvent.keydown, some 0, some 5⟩]).log) :=
  useKeyboard_rebind_policy
    [⟨"Enter", 0, true, TKeyboardEvent.keydown, some 0, some 5⟩]
    ⟨"Escape", 0, true, TKeyboardEvent.keydown, some 0, some 5⟩
    ⟨0, "Enter", true, 0⟩ rfl

end Hooks
